import Mathlib

/-!
# Verification of the `aigrabber` download engine core

Shallow embedding of the repository's core modules, and proofs settling the
frozen claims about them:

* `packages/app/src/main/native-host.ts` — length-prefixed native-messaging
  decoder (`NativeMessagingHost.handleData`);
* the desktop downloader (`Downloader`: `startDownload`, `cancelDownload`,
  `processQueue`, `executeDownload`, `downloadHLS`/`downloadDASH`);
* `packages/shared/src/parsers/hls.ts` — the HLS manifest parser (both
  master and media mode) and the DASH adaptation-set / segment-template
  logic (`parseAdaptationSet`, `generateSegmentUrls`).

Modelling conventions:
* byte streams are `List Nat` (each entry one byte);
* JavaScript numbers produced by `parseInt` are modelled as `JSNum := Option Int`
  with `none` standing for `NaN`;
* external runtime facilities that the code calls but that are not part of
  the repository (`JSON.parse`, the WHATWG `URL` constructor) are passed in
  as function parameters, so every theorem quantifies over their behaviour;
* event emission and network requests performed by the downloader are made
  explicit as traces.
-/

namespace AIGrabber

deriving instance DecidableEq for Except

/-! ## Native-messaging decoder (`native-host.ts`, `handleData`)

The wire format is a sequence of frames, each a 4-byte little-endian length
followed by that many bytes of JSON.  `handleData` appends the incoming chunk
to an internal buffer and then extracts as many complete frames as are
available; each frame body is passed to `JSON.parse`, and the parsed message
is delivered to the `onMessage` handler.  A body that fails to parse is
logged and dropped; the loop continues with the rest of the buffer.

`parse` below models `JSON.parse` composed with delivery: `none` means the
body raised a parse error (so nothing is delivered), `some m` means the
handler received message `m`. -/

/-- `readUInt32LE` of four bytes, as in `this.buffer.readUInt32LE(0)`. -/
def readU32LE (b0 b1 b2 b3 : Nat) : Nat :=
  b0 + 256 * b1 + 65536 * b2 + 16777216 * b3

/-- The little-endian 4-byte encoding of a length `n < 2^32`
(what `lengthBuffer.writeUInt32LE` produces on the sending side). -/
def lenBytesLE (n : Nat) : List Nat :=
  [n % 256, n / 256 % 256, n / 65536 % 256, n / 16777216 % 256]

/-- The `while` loop of `NativeMessagingHost.handleData`: repeatedly read a
4-byte length; if the buffer holds the complete body, slice it off, attempt
to parse it (delivering on success), and continue; otherwise stop and keep
the partial data buffered.  Returns the delivered messages in order together
with the remaining buffer. -/
def processBuffer (parse : List Nat → Option α) : List Nat → List α × List Nat
  | b0 :: b1 :: b2 :: b3 :: rest =>
    let len := readU32LE b0 b1 b2 b3
    if rest.length < len then
      ([], b0 :: b1 :: b2 :: b3 :: rest)
    else
      let out := processBuffer parse (rest.drop len)
      ((parse (rest.take len)).toList ++ out.1, out.2)
  | other => ([], other)
termination_by l => l.length
decreasing_by
  simp only [List.length_drop, List.length_cons]
  omega

/-- `handleData`: the incoming chunk is appended to the buffered bytes and the
frame-extraction loop runs on the concatenation. -/
def handleData (parse : List Nat → Option α) (buffered chunk : List Nat) :
    List α × List Nat :=
  processBuffer parse (buffered ++ chunk)

/-- A complete frame as laid out on the wire: 4-byte little-endian length
followed by the body. -/
def mkFrame (body : List Nat) : List Nat :=
  lenBytesLE body.length ++ body

theorem readU32LE_lenBytesLE (n : Nat) (h : n < 4294967296) :
    readU32LE (n % 256) (n / 256 % 256) (n / 65536 % 256) (n / 16777216 % 256) = n := by
  unfold readU32LE
  omega

/-- Key decoder lemma: a buffer beginning with one complete frame is consumed
exactly up to the end of that frame; the frame body is handed to the parser
(delivering on success) and decoding continues on the remaining bytes,
whatever the body's length. -/
theorem processBuffer_frame (parse : List Nat → Option α) (body tail : List Nat)
    (h : body.length < 4294967296) :
    processBuffer parse (mkFrame body ++ tail) =
      ((parse body).toList ++ (processBuffer parse tail).1,
        (processBuffer parse tail).2) := by
  have hlen : readU32LE (body.length % 256) (body.length / 256 % 256)
      (body.length / 65536 % 256) (body.length / 16777216 % 256) = body.length :=
    readU32LE_lenBytesLE body.length h
  simp only [mkFrame, lenBytesLE, List.cons_append, List.nil_append]
  rw [processBuffer]
  have hnot : ¬ (body ++ tail).length < body.length := by
    simp [List.length_append]
  simp [hlen, hnot, List.take_left, List.drop_left]

theorem processBuffer_nil (parse : List Nat → Option α) :
    processBuffer parse [] = ([], []) := by
  simp [processBuffer]

/-! ### Claim C4 — frame size cap

The spec claims frames whose declared body length exceeds 1 MiB are discarded
and an error is surfaced.  `handleData` contains no size check of any kind:
the declared length is only compared against the bytes available, so an
oversized frame is simply buffered until complete and then delivered. -/

/-- C4 counterexample: a frame whose declared body length is `2^20 + 1` bytes
(one byte over 1 MiB) is NOT discarded by the decoder — its body is handed to
the parser and the parsed message is delivered to the handler, refuting the
claim that such frames never reach the message handler. -/
theorem C4_oversized_frame_delivered :
    1048576 < 1048577 ∧
    processBuffer (fun l : List Nat => some l.length)
      (mkFrame (List.replicate 1048577 65)) = ([1048577], []) := by
  refine ⟨by norm_num, ?_⟩
  have h := processBuffer_frame (fun l : List Nat => some l.length)
      (List.replicate 1048577 65) [] (by rw [List.length_replicate]; norm_num)
  rw [List.append_nil, processBuffer_nil] at h
  simp only [List.length_replicate] at h
  exact h

/-- C4 amended: the decoder imposes no frame-size limit.  A frame whose body
exceeds 1 MiB is buffered until complete and then parsed and delivered to the
handler exactly like any other frame; nothing is discarded and no error is
surfaced (the stream simply continues with the remaining bytes). -/
theorem C4_no_size_cap (parse : List Nat → Option α) (body tail : List Nat)
    (m : α) (_hbig : 1048576 < body.length) (h32 : body.length < 4294967296)
    (hp : parse body = some m) :
    processBuffer parse (mkFrame body ++ tail) =
      (m :: (processBuffer parse tail).1, (processBuffer parse tail).2) := by
  rw [processBuffer_frame parse body tail h32, hp]
  rfl

/-- Concrete parse function for the C4 witness: accepts exactly the oversized
body used there. -/
def bigBodyC4 : List Nat := List.replicate 1048577 66

theorem C4_no_size_cap_witness :
    processBuffer (fun l : List Nat => if l.length = 1048577 then some 9 else none)
      (mkFrame bigBodyC4 ++ []) = ([9], []) := by
  have h := C4_no_size_cap (fun l : List Nat => if l.length = 1048577 then some 9 else none)
      bigBodyC4 [] 9
      (by rw [bigBodyC4, List.length_replicate]; norm_num)
      (by rw [bigBodyC4, List.length_replicate]; norm_num)
      (by show (if bigBodyC4.length = 1048577 then some 9 else none) = some 9
          rw [bigBodyC4, List.length_replicate, if_pos rfl])
  rw [processBuffer_nil] at h
  exact h

/-! ### Claim C5 — malformed JSON frame does not desynchronize the stream -/

/-- C5: a complete frame whose body fails JSON parsing is discarded — exactly
its bytes are consumed, nothing is delivered for it, the stream is not closed,
and decoding continues in sync: processing `badFrame ++ rest` is identical to
processing `rest` alone, and in particular a following well-formed frame is
still parsed and delivered to the handler. -/
theorem C5_malformed_frame_skipped (parse : List Nat → Option α)
    (b1 b2 : List Nat) (m : α)
    (h1 : b1.length < 4294967296) (h2 : b2.length < 4294967296)
    (hbad : parse b1 = none) (hgood : parse b2 = some m) :
    (∀ tail, processBuffer parse (mkFrame b1 ++ tail) = processBuffer parse tail) ∧
    processBuffer parse (mkFrame b1 ++ mkFrame b2) = ([m], []) := by
  have hskip : ∀ tail, processBuffer parse (mkFrame b1 ++ tail) = processBuffer parse tail := by
    intro tail
    rw [processBuffer_frame parse b1 tail h1, hbad]
    simp
  refine ⟨hskip, ?_⟩
  rw [hskip (mkFrame b2)]
  have h := processBuffer_frame parse b2 [] h2
  rw [List.append_nil] at h
  simpa [processBuffer_nil, hgood] using h

/-- The body bytes of the frame `"PING0"` from the spec's framing scenario
(a 5-byte body that is not valid JSON). -/
def ping0Bytes : List Nat := [80, 73, 78, 71, 48]

/-- The body bytes of the well-formed frame
`{"type":"PING","timestamp":1}` from the spec's framing scenario. -/
def pingJsonBytes : List Nat :=
  [123, 34, 116, 121, 112, 101, 34, 58, 34, 80, 73, 78, 71, 34, 44,
   34, 116, 105, 109, 101, 115, 116, 97, 109, 112, 34, 58, 49, 125]

theorem C5Witness_malformed_frame_skipped :
    processBuffer (fun l : List Nat => if l = pingJsonBytes then some 1 else none)
      (mkFrame ping0Bytes ++ mkFrame pingJsonBytes) = ([1], []) :=
  (C5_malformed_frame_skipped
      (fun l : List Nat => if l = pingJsonBytes then some 1 else none)
      ping0Bytes pingJsonBytes 1
      (by norm_num [ping0Bytes]) (by norm_num [pingJsonBytes])
      (by decide) (by simp)).2

/-! ## Downloader scheduler state (`Downloader` in the app main process)

`Downloader` holds a `Map` of jobs, a pending queue of job ids, a count of
active downloads, and a `Map` of `AbortController`s.  `startDownload` creates
a `pending` job, enqueues it and runs `processQueue`, which starts jobs while
capacity remains.  Because `executeDownload` is an `async` function invoked
without `await`, its body runs synchronously up to its first `await`: it
increments `activeDownloads`, marks the job `downloading`, registers an
`AbortController` and — for `hls`/`dash`/`direct` streams — issues the first
HTTP request (the manifest / direct GET) before suspending.  The model below
captures exactly this synchronous prefix, with every issued request recorded
as a `NetEv`.

JS `Map`s are modelled as association lists with `Map.set`'s
replace-or-append semantics; the `AbortController` map is modelled by its key
set plus the set of ids whose controller has been aborted (the signal object
outlives its deletion from the map, since the running task holds it). -/

inductive StreamType
  | hls | dash | direct | ytdlp | unknown
deriving DecidableEq

inductive Protection
  | nothing   -- the source's 'none'
  | drm
  | unidentified  -- the source's 'unknown'
deriving DecidableEq

inductive DStatus
  | pending | downloading | merging | completed | failed | cancelled
deriving DecidableEq

structure Stream where
  url : String
  type : StreamType
  protection : Protection
deriving DecidableEq

structure Job where
  id : String
  stream : Stream
  status : DStatus
  errMsg : Option String
  outputPath : Option String
deriving DecidableEq

structure SchedState where
  jobs : List (String × Job)
  activeDownloads : Nat
  queue : List String
  controllers : List String
  aborted : List String
  maxConcurrent : Nat
deriving DecidableEq

/-- A network request issued by the downloader (a `got` / `got.stream` call). -/
inductive NetEv
  | fetch (url : String)
deriving DecidableEq

/-- `Map.set`: replace the value in place if the key exists, append otherwise. -/
def mapSet (k : String) (v : Job) (m : List (String × Job)) : List (String × Job) :=
  if (m.lookup k).isSome then
    m.map (fun kv => if kv.1 = k then (k, v) else kv)
  else
    m ++ [(k, v)]

/-- `job.status = st` applied through the map (`jobs.get(id)` returns the one
entry with that key; mutating it updates the map in place). -/
def setStatus (jobId : String) (st : DStatus) (jobs : List (String × Job)) :
    List (String × Job) :=
  jobs.map (fun kv => if kv.1 = jobId then (kv.1, { kv.2 with status := st }) else kv)

/-- `Downloader.cancelDownload` (downloader source, lines 76–93): abort and
delete the job's controller if present, mark the job `cancelled` if present,
and splice the id out of the pending queue if present. -/
def cancelDownload (jobId : String) (s : SchedState) : SchedState :=
  let s1 :=
    if jobId ∈ s.controllers then
      { s with aborted := s.aborted ++ [jobId], controllers := s.controllers.erase jobId }
    else s
  let s2 := { s1 with jobs := setStatus jobId .cancelled s1.jobs }
  { s2 with queue := s2.queue.erase jobId }

/-- `Downloader.processQueue` together with the synchronous prefix of each
`executeDownload` it spawns.  While a slot is free and the queue is nonempty,
the next id is shifted off; a missing or already-cancelled job is skipped;
otherwise the slot is taken, the job is marked `downloading`, its controller
is registered, and the first HTTP request of its download routine is issued
(for `ytdlp`/`unknown` types, `executeDownload` throws synchronously, so the
`catch` marks the job `failed` and the `finally` frees the slot, removes the
controller, and re-enters this very loop).  `fuel` bounds the iterations; the
queue length at entry always suffices since every step consumes one entry. -/
def processQueue (fuel : Nat) (s : SchedState) : SchedState × List NetEv :=
  match fuel with
  | 0 => (s, [])
  | fuel + 1 =>
    if s.activeDownloads < s.maxConcurrent then
      match s.queue with
      | [] => (s, [])
      | jobId :: rest =>
        let s0 := { s with queue := rest }
        match s0.jobs.lookup jobId with
        | none => processQueue fuel s0
        | some job =>
          if job.status = .cancelled then processQueue fuel s0
          else
            let s1 := { s0 with
              activeDownloads := s0.activeDownloads + 1,
              jobs := setStatus jobId .downloading s0.jobs,
              controllers := s0.controllers ++ [jobId] }
            match job.stream.type with
            | .hls | .dash | .direct =>
              let out := processQueue fuel s1
              (out.1, NetEv.fetch job.stream.url :: out.2)
            | _ =>
              let s2 := { s1 with
                activeDownloads := s1.activeDownloads - 1,
                jobs := setStatus jobId .failed s1.jobs,
                controllers := s1.controllers.erase jobId }
              processQueue fuel s2
    else (s, [])

/-- `Downloader.startDownload` (downloader source, lines 45–71): allocate a
`pending` job (`generateId` is modelled by the caller-supplied fresh
`newId`), register it, push it on the queue and run `processQueue`.  Returns
the post-call state and the HTTP requests issued synchronously. -/
def startDownload (newId : String) (stream : Stream) (s : SchedState) :
    SchedState × List NetEv :=
  let job : Job :=
    { id := newId, stream := stream, status := .pending,
      errMsg := none, outputPath := none }
  let s' := { s with jobs := mapSet newId job s.jobs, queue := s.queue ++ [newId] }
  processQueue s'.queue.length s'

/-- A DRM-protected HLS stream, as handed over by the extension. -/
def drmStream : Stream :=
  { url := "https://example.com/master.m3u8", type := .hls, protection := .drm }

/-- The scheduler's initial state with the default `maxConcurrent = 3`. -/
def initialSched : SchedState :=
  { jobs := [], activeDownloads := 0, queue := [], controllers := [],
    aborted := [], maxConcurrent := 3 }

/-- C1: evaluation of the code at the failing input.  `startDownload` on a
DRM-marked stream does NOT refuse it: the job is created, immediately
scheduled, left in status `downloading` (not `failed`, and with no error
message), and the manifest GET for the stream URL is issued — one network
request instead of the zero the claim requires. -/
theorem C1_drm_stream_not_refused :
    ((startDownload "job-1" drmStream initialSched).1.jobs.lookup "job-1").map
        Job.status = some .downloading ∧
    ((startDownload "job-1" drmStream initialSched).1.jobs.lookup "job-1").map
        Job.errMsg = some none ∧
    (startDownload "job-1" drmStream initialSched).2 =
      [NetEv.fetch "https://example.com/master.m3u8"] ∧
    drmStream.protection = .drm := by
  decide

/-! ### Claims C9 and C10 — `cancelDownload` algebra -/

theorem not_mem_erase_of_count_le_one {α : Type} [DecidableEq α] (a : α)
    (l : List α) (h : l.count a ≤ 1) : a ∉ l.erase a := by
  intro hm
  have h1 := List.count_erase_self a l
  have h2 : 0 < (l.erase a).count a := List.count_pos_iff.mpr hm
  omega

theorem erase_erase_of_count_le_one {α : Type} [DecidableEq α] (a : α)
    (l : List α) (h : l.count a ≤ 1) : (l.erase a).erase a = l.erase a :=
  List.erase_of_not_mem (not_mem_erase_of_count_le_one a l h)

theorem setStatus_setStatus (jobId : String) (st : DStatus)
    (jobs : List (String × Job)) :
    setStatus jobId st (setStatus jobId st jobs) = setStatus jobId st jobs := by
  unfold setStatus
  rw [List.map_map]
  apply List.map_congr_left
  intro kv _
  by_cases h : kv.1 = jobId <;> simp [h]

theorem lookup_cons_self (k : String) (v : Job) (l : List (String × Job)) :
    List.lookup k ((k, v) :: l) = some v := by
  simp [List.lookup]

theorem lookup_cons_of_ne (k k0 : String) (v : Job) (l : List (String × Job))
    (h : k ≠ k0) : List.lookup k ((k0, v) :: l) = List.lookup k l := by
  have hbeq : (k == k0) = false := by simp [h]
  simp [List.lookup, hbeq]

theorem setStatus_cons_self (jobId : String) (st : DStatus) (v : Job)
    (rest : List (String × Job)) :
    setStatus jobId st ((jobId, v) :: rest) =
      (jobId, { v with status := st }) :: setStatus jobId st rest := by
  simp [setStatus]

theorem setStatus_cons_of_ne (jobId : String) (st : DStatus) (k : String)
    (v : Job) (rest : List (String × Job)) (h : k ≠ jobId) :
    setStatus jobId st ((k, v) :: rest) = (k, v) :: setStatus jobId st rest := by
  simp [setStatus, h]

theorem lookup_setStatus (jobId : String) (st : DStatus)
    (jobs : List (String × Job)) :
    (setStatus jobId st jobs).lookup jobId =
      (jobs.lookup jobId).map (fun j => { j with status := st }) := by
  induction jobs with
  | nil => simp [setStatus]
  | cons kv rest ih =>
    obtain ⟨k, v⟩ := kv
    by_cases h : k = jobId
    · subst h
      rw [setStatus_cons_self, lookup_cons_self, lookup_cons_self]
      rfl
    · rw [setStatus_cons_of_ne _ _ _ _ _ h,
        lookup_cons_of_ne _ _ _ _ (Ne.symm h),
        lookup_cons_of_ne _ _ _ _ (Ne.symm h), ih]

theorem lookup_none_keys (jobs : List (String × Job)) (k : String)
    (h : jobs.lookup k = none) : ∀ kv ∈ jobs, kv.1 ≠ k := by
  induction jobs with
  | nil => simp
  | cons kv rest ih =>
    obtain ⟨k0, v0⟩ := kv
    by_cases hk : k = k0
    · subst hk
      rw [lookup_cons_self] at h
      cases h
    · rw [lookup_cons_of_ne _ _ _ _ hk] at h
      intro kv' hkv'
      rcases List.mem_cons.mp hkv' with heq | hmem
      · subst heq
        exact fun hc => hk hc.symm
      · exact ih h kv' hmem

/-- C9: `cancelDownload` is idempotent — a second call finds no controller to
abort, re-marks the already-cancelled job `cancelled`, and finds the id gone
from the queue — and a single call on a still-pending job removes its id from
the pending queue and marks its status `cancelled`.  The count hypotheses
record that a job id occurs at most once in the queue and the controller
table (ids are generated fresh per job, and `abortControllers` is a `Map`). -/
theorem C9_cancelDownload_idempotent (s : SchedState) (jobId : String)
    (hq : s.queue.count jobId ≤ 1) (hc : s.controllers.count jobId ≤ 1) :
    cancelDownload jobId (cancelDownload jobId s) = cancelDownload jobId s ∧
    (∀ j, s.jobs.lookup jobId = some j → j.status = .pending →
      (cancelDownload jobId s).jobs.lookup jobId =
          some { j with status := .cancelled } ∧
        jobId ∉ (cancelDownload jobId s).queue) := by
  constructor
  · have hce : jobId ∉ s.controllers.erase jobId :=
      not_mem_erase_of_count_le_one jobId s.controllers hc
    have hqe : (s.queue.erase jobId).erase jobId = s.queue.erase jobId :=
      erase_erase_of_count_le_one jobId s.queue hq
    by_cases hm : jobId ∈ s.controllers <;>
      simp [cancelDownload, hm, hce, hqe, setStatus_setStatus]
  · intro j hj _
    constructor
    · have : (cancelDownload jobId s).jobs = setStatus jobId .cancelled s.jobs := by
        by_cases hm : jobId ∈ s.controllers <;> simp [cancelDownload, hm]
      rw [this, lookup_setStatus, hj]
      rfl
    · have : (cancelDownload jobId s).queue = s.queue.erase jobId := by
        by_cases hm : jobId ∈ s.controllers <;> simp [cancelDownload, hm]
      rw [this]
      exact not_mem_erase_of_count_le_one jobId s.queue hq

/-- A pending job as created by `startDownload`. -/
def pendingJob : Job :=
  { id := "j1",
    stream := { url := "https://example.com/a.m3u8", type := .hls, protection := .nothing },
    status := .pending, errMsg := none, outputPath := none }

/-- A scheduler state holding `pendingJob` still in the queue (as when all
slots are busy). -/
def schedWithPending : SchedState :=
  { jobs := [("j1", pendingJob)], activeDownloads := 3, queue := ["j1"],
    controllers := [], aborted := [], maxConcurrent := 3 }

theorem C9Witness_cancelDownload_idempotent :
    cancelDownload "j1" (cancelDownload "j1" schedWithPending) =
        cancelDownload "j1" schedWithPending ∧
      (cancelDownload "j1" schedWithPending).jobs.lookup "j1" =
        some { pendingJob with status := .cancelled } ∧
      "j1" ∉ (cancelDownload "j1" schedWithPending).queue := by
  have h := C9_cancelDownload_idempotent schedWithPending "j1"
    (by decide) (by decide)
  exact ⟨h.1, h.2 pendingJob (by decide) (by decide)⟩

/-- Run-time invariant of the `Downloader`: every id in the pending queue and
every id with a registered `AbortController` has an entry in the job table
(`startDownload` registers the job before enqueueing it; `executeDownload`
registers a controller only for a job it found in the table). -/
def WellFormed (s : SchedState) : Prop :=
  (∀ i ∈ s.queue, (s.jobs.lookup i).isSome) ∧
  (∀ i ∈ s.controllers, (s.jobs.lookup i).isSome)

/-- C10: cancelling a job id that is not in the job table is a total no-op:
no controller is found, the job-table update touches nothing, the queue
splice finds no occurrence, and the active-download count is untouched (the
function never writes it).  Nothing in the body can throw. -/
theorem C10_cancel_unknown_id_noop (s : SchedState) (jobId : String)
    (hwf : WellFormed s) (h : s.jobs.lookup jobId = none) :
    cancelDownload jobId s = s := by
  obtain ⟨hwq, hwc⟩ := hwf
  have hnc : jobId ∉ s.controllers := by
    intro hm
    have := hwc jobId hm
    rw [h] at this
    simp at this
  have hnq : jobId ∉ s.queue := by
    intro hm
    have := hwq jobId hm
    rw [h] at this
    simp at this
  have hset : setStatus jobId .cancelled s.jobs = s.jobs := by
    unfold setStatus
    have hid : ∀ kv ∈ s.jobs,
        (if kv.1 = jobId then (kv.1, { kv.2 with status := DStatus.cancelled }) else kv) = kv := by
      intro kv hkv
      simp [lookup_none_keys s.jobs jobId h kv hkv]
    rw [List.map_congr_left hid]
    simp
  simp [cancelDownload, hnc, hset, List.erase_of_not_mem hnq]

/-- A scheduler state with one known job, used to exercise C10 on an unknown id. -/
def schedKnownOne : SchedState :=
  { jobs := [("j1", pendingJob)], activeDownloads := 1, queue := ["j1"],
    controllers := ["j1"], aborted := [], maxConcurrent := 3 }

theorem C10Witness_cancel_unknown_id_noop :
    cancelDownload "no-such-job" schedKnownOne = schedKnownOne :=
  C10_cancel_unknown_id_noop schedKnownOne "no-such-job"
    ⟨by decide, by decide⟩ (by decide)

/-! ## Per-job execution trace (`executeDownload` + `downloadHLS`/`downloadDASH`)

The downloaded job is modelled as a trace over oracles for the external
world:

* `setup` summarises the manifest fetch/parse phase at the top of
  `downloadHLS`/`downloadDASH` (the two `got` calls plus parsing): on success
  it yields the number of segments to download, on error the thrown message;
* `fetch i a` is the result of the `got(segment.uri)` call for segment `i`
  on attempt `a` — the source performs exactly one call per loop iteration,
  so only attempt `0` is ever consulted, but the oracle ranges over attempt
  numbers so that "what a retry would have returned" is expressible;
* `merge` is the outcome of the FFmpeg merge (or concat fallback);
* `cancelAt = some k` means a `cancelDownload` for this job is observed by
  the abort checks at loop index `k` (the `if (signal.aborted)` test, or an
  in-flight signal-carrying `got`).  `k ≥ total` models a cancellation that
  is only observed after the segment loop (e.g. during merging).  In every
  cancelled path `cancelDownload` has already set `job.status = 'cancelled'`,
  so the `catch`/post-`try` checks in `executeDownload` suppress both the
  `complete` and the `error` events.

Events are the job-scoped emissions wired up in the app main process:
`onProgress` sends a `DOWNLOAD_PROGRESS` with status `'downloading'`,
`onComplete` a `DOWNLOAD_COMPLETE`, `onError` a `DOWNLOAD_ERROR`. -/

inductive Ev
  | progress (status : String)
  | complete
  | error (msg : String)
deriving DecidableEq

inductive SegResult
  | ok
  | failedSeg (i : Nat) (msg : String)
  | abortedRun
deriving DecidableEq

/-- Does the abort check at loop index `i` observe the cancellation? -/
def observed (cancelAt : Option Nat) (i : Nat) : Bool :=
  match cancelAt with
  | some k => k ≤ i
  | none => false

/-- The segment loop of `downloadHLS` (and identically `downloadDASH`): for
each segment in order, check the abort signal, issue exactly one GET
(attempt `0` of the oracle — the source has no retry), write the file, and
emit one progress event.  Returns the events, the log of `(segment, attempt)`
pairs actually fetched, and how the loop ended. -/
def segLoop (fetch : Nat → Nat → Except String Nat) (cancelAt : Option Nat) :
    Nat → Nat → List Ev × List (Nat × Nat) × SegResult
  | _, 0 => ([], [], .ok)
  | i, n + 1 =>
    if observed cancelAt i then ([], [], .abortedRun)
    else
      match fetch i 0 with
      | .error e => ([], [(i, 0)], .failedSeg i e)
      | .ok _ =>
        let rest := segLoop fetch cancelAt (i + 1) n
        (.progress "downloading" :: rest.1, (i, 0) :: rest.2.1, rest.2.2)

/-- The oracles a single job run consumes. -/
structure RunEnv where
  setup : Except String Nat
  fetch : Nat → Nat → Except String Nat
  merge : Except String Unit
  cancelAt : Option Nat

/-- One full job run through `executeDownload`: the manifest phase, the
segment loop, the merge, and the terminal bookkeeping of
`executeDownload`'s `try`/`catch` (`catch` emits `onError` only when the
error is not an abort and the job was not cancelled; the post-`try` check
emits `onComplete` only when the job was not cancelled).  Returns the
emitted events, the fetch log, and the job's final status. -/
def runJob (env : RunEnv) : List Ev × List (Nat × Nat) × DStatus :=
  match env.setup with
  | .error e => ([.error e], [], .failed)
  | .ok total =>
    let out := segLoop env.fetch env.cancelAt 0 total
    match out.2.2 with
    | .abortedRun => (out.1, out.2.1, .cancelled)
    | .failedSeg _ e => (out.1 ++ [.error e], out.2.1, .failed)
    | .ok =>
      match env.cancelAt with
      | some _ => (out.1, out.2.1, .cancelled)
      | none =>
        match env.merge with
        | .error e => (out.1 ++ [.error e], out.2.1, .failed)
        | .ok _ => (out.1 ++ [.complete], out.2.1, .completed)

/-! ### Claim C2 — per-segment retry with backoff -/

/-- C2 counterexample environment: three segments; segment 0's GET fails with
a transport error on the first attempt but would succeed on any retry. -/
def envC2 : RunEnv :=
  { setup := .ok 3,
    fetch := fun i a => if i = 0 ∧ a = 0 then .error "ECONNRESET" else .ok 1000,
    merge := .ok (),
    cancelAt := none }

/-- C2 counterexample: the claim says the failing segment is retried with
backoff up to 3 attempts before the job aborts.  In the code the very first
transport error aborts the job: segment 0 is fetched exactly once (attempt 0
only — one entry in the log, not 3), even though a second attempt would have
succeeded, and the job fails with the raw error message. -/
theorem C2_no_retry_counterexample :
    runJob envC2 = ([.error "ECONNRESET"], [(0, 0)], .failed) ∧
    envC2.fetch 0 1 = .ok 1000 := by
  constructor <;> decide

/-- The segment loop up to the first failing GET, in closed form: one
progress event per completed segment, one `(segment, attempt 0)` log entry
per issued GET, and the failing segment fetched exactly once. -/
theorem segLoop_succ (fetch : Nat → Nat → Except String Nat) (c : Option Nat)
    (i n : Nat) :
    segLoop fetch c i (n + 1) =
      if observed c i then ([], [], .abortedRun)
      else
        match fetch i 0 with
        | .error e => ([], [(i, 0)], .failedSeg i e)
        | .ok _ =>
          let rest := segLoop fetch c (i + 1) n
          (.progress "downloading" :: rest.1, (i, 0) :: rest.2.1, rest.2.2) :=
  rfl

theorem map_range_shift (b i : Nat) :
    (List.range (i + 1 + 1)).map (fun j => (b + j, (0 : Nat))) =
      (b, (0 : Nat)) :: (List.range (i + 1)).map (fun j => (b + 1 + j, (0 : Nat))) := by
  rw [List.range_succ_eq_map]
  simp only [List.map_cons, List.map_map, Nat.add_zero]
  refine congrArg _ ?_
  apply List.map_congr_left
  intro j _
  simp only [Function.comp_apply]
  refine congrArg (fun t => (t, 0)) ?_
  omega

theorem segLoop_first_error (fetch : Nat → Nat → Except String Nat)
    (e : String) :
    ∀ (i b m : Nat), i < m →
      (∀ j, j < i → ∃ n, fetch (b + j) 0 = .ok n) →
      fetch (b + i) 0 = .error e →
      segLoop fetch none b m =
        (List.replicate i (.progress "downloading"),
          (List.range (i + 1)).map (fun j => (b + j, 0)),
          .failedSeg (b + i) e) := by
  intro i
  induction i with
  | zero =>
    intro b m hm _ hfail
    obtain ⟨m', rfl⟩ : ∃ m', m = m' + 1 := ⟨m - 1, by omega⟩
    rw [Nat.add_zero] at hfail
    rw [segLoop_succ]
    simp only [observed]
    rw [if_neg Bool.false_ne_true]
    simp [hfail, List.range_succ]
  | succ i ih =>
    intro b m hm hok hfail
    obtain ⟨m', rfl⟩ : ∃ m', m = m' + 1 := ⟨m - 1, by omega⟩
    obtain ⟨n0, hn0⟩ := hok 0 (Nat.succ_pos i)
    rw [Nat.add_zero] at hn0
    have hrec := ih (b + 1) m' (by omega)
      (fun j hj => by
        have hj1 := hok (j + 1) (by omega)
        rwa [show b + (j + 1) = b + 1 + j by omega] at hj1)
      (by rw [show b + 1 + i = b + (i + 1) by omega]; exact hfail)
    rw [segLoop_succ]
    simp only [observed]
    rw [if_neg Bool.false_ne_true]
    simp only [hn0, hrec]
    rw [map_range_shift b i, List.replicate_succ,
      show b + (i + 1) = b + 1 + i by omega]

/-- C2 amended: there is no retry and no backoff.  Each segment's GET is
issued exactly once (attempt `0` of the oracle, one log entry per segment);
the first transport error immediately aborts the job with an `error` event
carrying the underlying error's own message (there is no `SegmentFetchFailed`
wrapper), after one progress event per previously completed segment;
segments after the failing one are never fetched. -/
theorem C2_first_error_aborts (env : RunEnv) (total i : Nat) (e : String)
    (hs : env.setup = .ok total) (hcancel : env.cancelAt = none)
    (hi : i < total)
    (hok : ∀ j, j < i → ∃ n, env.fetch j 0 = .ok n)
    (hfail : env.fetch i 0 = .error e) :
    runJob env = (List.replicate i (.progress "downloading") ++ [.error e],
      (List.range (i + 1)).map (fun j => (j, 0)), .failed) := by
  have hloop := segLoop_first_error env.fetch e i 0 total hi
    (by simpa using hok) (by simpa using hfail)
  simp only [runJob, hs, hcancel, hloop]
  simp [Nat.zero_add]

/-- A run environment exercising the amended C2: four segments, segment 2
fails. -/
def envC2w : RunEnv :=
  { setup := .ok 4,
    fetch := fun i _ => if i = 2 then .error "socket hang up" else .ok 7,
    merge := .ok (),
    cancelAt := none }

theorem C2Witness_first_error_aborts :
    runJob envC2w =
      (List.replicate 2 (.progress "downloading") ++ [.error "socket hang up"],
        (List.range 3).map (fun j => (j, 0)), .failed) :=
  C2_first_error_aborts envC2w 4 2 "socket hang up" (by decide) (by decide)
    (by decide) (fun j hj => ⟨7, by interval_cases j <;> decide⟩) (by decide)

/-! ### Claim C3 — event ordering and terminal events -/

/-- Is an event terminal (`complete` or `error`)? -/
def isTerminal (e : Ev) : Bool :=
  match e with
  | .progress _ => false
  | _ => true

/-- Every event emitted by the segment loop is a progress event with status
`'downloading'` (the only status `onProgress` is wired to send). -/
theorem segLoop_events_progress (fetch : Nat → Nat → Except String Nat)
    (c : Option Nat) :
    ∀ n i, ∀ e ∈ (segLoop fetch c i n).1, e = .progress "downloading" := by
  intro n
  induction n with
  | zero =>
    intro i e he
    simp [segLoop] at he
  | succ n ih =>
    intro i e he
    rw [segLoop_succ] at he
    cases hobs : observed c i with
    | true =>
      rw [hobs] at he
      simp at he
    | false =>
      rw [hobs] at he
      simp only [Bool.false_eq_true, if_false] at he
      cases hf : fetch i 0 with
      | error msg =>
        simp only [hf] at he
        simp at he
      | ok v =>
        simp only [hf] at he
        rcases List.mem_cons.mp he with heq | hmem
        · exact heq
        · exact ih (i + 1) e hmem

/-- C3 counterexample: a job with three segments is cancelled after its first
segment (the abort check before segment 1 observes the signal).  The job ends
in status `cancelled`, but the final emitted event is the ordinary
`'downloading'` progress of segment 0 — there is no progress event with
status `'cancelled'`, contradicting the claimed shape of the final event for
a cancelled job. -/
def envC3 : RunEnv :=
  { setup := .ok 3, fetch := fun _ _ => .ok 500, merge := .ok (),
    cancelAt := some 1 }

theorem C3_cancelled_job_emits_no_terminal :
    runJob envC3 = ([.progress "downloading"], [(0, 0)], .cancelled) ∧
    (runJob envC3).1.getLast? = some (.progress "downloading") ∧
    Ev.progress "cancelled" ∉ (runJob envC3).1 ∧
    Ev.complete ∉ (runJob envC3).1 ∧
    (∀ msg, Ev.error msg ∉ (runJob envC3).1) := by
  refine ⟨by decide, by decide, by decide, by decide, ?_⟩
  intro msg
  have : runJob envC3 = ([.progress "downloading"], [(0, 0)], .cancelled) := by decide
  rw [this]
  simp

/-- C3 amended: for every job run, events are emitted in order and no event
follows a terminal one (every non-final event is a progress event); the final
event of a successful job is `complete` and of a failed job `error`; a
cancelled job, however, emits NO terminal marker at all — its trace is a
(possibly empty) sequence of status-`'downloading'` progress events, with no
`complete`, no `error`, and in particular no progress event with status
`'cancelled'`. -/
theorem C3_event_discipline (env : RunEnv) :
    (∀ e ∈ (runJob env).1.dropLast, isTerminal e = false) ∧
    ((runJob env).2.2 = .completed → (runJob env).1.getLast? = some .complete) ∧
    ((runJob env).2.2 = .failed → ∃ msg, (runJob env).1.getLast? = some (.error msg)) ∧
    ((runJob env).2.2 = .cancelled → ∀ e ∈ (runJob env).1, e = .progress "downloading") := by
  obtain ⟨setup, fetch, merge, cancelAt⟩ := env
  rcases setup with e | total
  · refine ⟨?_, ?_, ?_, ?_⟩ <;> simp only [runJob]
    · intro ev hev
      simp at hev
    · intro h
      cases h
    · intro _
      exact ⟨e, rfl⟩
    · intro h
      cases h
  · have hall := segLoop_events_progress fetch cancelAt total 0
    rcases hseg : segLoop fetch cancelAt 0 total with ⟨evs, log, r⟩
    rw [hseg] at hall
    simp only at hall
    have hprog : ∀ e ∈ evs.dropLast, isTerminal e = false := by
      intro e he
      rw [hall e (List.dropLast_subset evs he)]
      rfl
    refine ⟨?_, ?_, ?_, ?_⟩ <;> simp only [runJob, hseg] <;>
      rcases r with _ | ⟨i, msg⟩ | _ <;> simp only
    · rcases cancelAt with _ | k
      · rcases merge with e | u
        · simp only
          intro ev hev
          rw [List.dropLast_concat] at hev
          rw [hall ev hev]
          rfl
        · simp only
          intro ev hev
          rw [List.dropLast_concat] at hev
          rw [hall ev hev]
          rfl
      · simp only
        exact hprog
    · intro ev hev
      rw [List.dropLast_concat] at hev
      rw [hall ev hev]
      rfl
    · exact hprog
    · rcases cancelAt with _ | k
      · rcases merge with e | u
        · simp only
          intro h
          cases h
        · simp only
          intro _
          rw [List.getLast?_concat]
      · simp only
        intro h
        cases h
    · intro h
      cases h
    · intro h
      cases h
    · rcases cancelAt with _ | k
      · rcases merge with e | u
        · simp only
          intro _
          exact ⟨e, by rw [List.getLast?_concat]⟩
        · simp only
          intro h
          cases h
      · simp only
        intro h
        cases h
    · intro _
      exact ⟨msg, by rw [List.getLast?_concat]⟩
    · intro h
      cases h
    · rcases cancelAt with _ | k
      · rcases merge with e | u
        · simp only
          intro h
          cases h
        · simp only
          intro h
          cases h
      · simp only
        intro _
        exact hall
    · intro h
      cases h
    · exact fun _ => hall

theorem C3Witness_event_discipline :
    ∀ e ∈ (runJob envC3).1, e = Ev.progress "downloading" :=
  (C3_event_discipline envC3).2.2.2 (by decide)

/-! ## Shared string / JavaScript-number infrastructure for the parsers

The HLS/DASH parser (`packages/shared/src/parsers/hls.ts`) works on JS
strings and numbers.  Strings are handled here as `List Char` (with `String`
at the API boundary); a JS number produced by `parseInt` is `JSNum :=
Option Int`, `none` playing the role of `NaN`.  Fractional values
(`parseFloat` results: segment durations, frame rates) appear in no claim and
are kept as their raw matched text. -/

/-- A JS number as produced by `parseInt(..., 10)`: an integer or `NaN`. -/
abbrev JSNum := Option Int

/-- One decimal digit? -/
def isDigitCh (c : Char) : Bool := 48 ≤ c.toNat && c.toNat ≤ 57

/-- JS whitespace trimmed by `String.prototype.trim` (the forms that occur in
manifests). -/
def isWsp (c : Char) : Bool :=
  c == ' ' || c == '\t' || c == '\n' || c == '\r' || c == '\x0b' || c == '\x0c'

def trimChars (l : List Char) : List Char :=
  ((l.dropWhile isWsp).reverse.dropWhile isWsp).reverse

/-- The value of a maximal leading digit run, if nonempty. -/
def digitsVal (l : List Char) : Option Nat :=
  let ds := l.takeWhile isDigitCh
  if ds.isEmpty then none
  else some (ds.foldl (fun acc c => acc * 10 + (c.toNat - 48)) 0)

/-- `parseInt(s, 10)`: trim, optional sign, longest decimal-digit prefix;
`NaN` (= `none`) when no digit is found. -/
def jsParseInt (s : String) : JSNum :=
  match trimChars s.data with
  | '-' :: rest => (digitsVal rest).map (fun n => -(n : Int))
  | '+' :: rest => (digitsVal rest).map (fun n => (n : Int))
  | l => (digitsVal l).map (fun n => (n : Int))

def prefixOf : List Char → List Char → Bool
  | [], _ => true
  | _ :: _, [] => false
  | a :: as, b :: bs => a == b && prefixOf as bs

def infixOf (n : List Char) : List Char → Bool
  | [] => n.isEmpty
  | c :: cs => prefixOf n (c :: cs) || infixOf n cs

/-- `String.prototype.includes` (substring test). -/
def strIncludes (hay needle : String) : Bool := infixOf needle.data hay.data

/-- `String.prototype.startsWith`. -/
def strStartsWith (s p : String) : Bool := prefixOf p.data s.data

/-- `String.prototype.split('\n')`. -/
def splitOnNl : List Char → List (List Char)
  | [] => [[]]
  | c :: cs =>
    match splitOnNl cs with
    | [] => [[c]]
    | x :: xs => if c = '\n' then [] :: x :: xs else (c :: x) :: xs

/-! ### The attribute tokenizer (`parseAttributes`)

The source repeatedly applies the global regex
`([A-Z-]+)=(?:"([^"]+)"|([^,]+))` to the attribute string.  The scan below
reproduces its deterministic leftmost-match behaviour: at each position, a
maximal run of `[A-Z-]` followed by `=` and either a nonempty double-quoted
chunk (quotes stripped) or a nonempty comma-free chunk yields a `KEY=VALUE`
pair and the scan resumes after it; otherwise the scan advances one
character.  Later occurrences of a key overwrite earlier ones (JS object
assignment), which `attrGet` reproduces by taking the last binding. -/

def isKeyChar (c : Char) : Bool := (65 ≤ c.toNat && c.toNat ≤ 90) || c == '-'

/-- The value part of the attribute regex: `(?:"([^"]+)"|([^,]+))`. -/
def matchValue : List Char → Option (List Char × List Char)
  | [] => none
  | c :: cs =>
    if c = '"' then
      let content := cs.takeWhile (fun d => d ≠ '"')
      let rest := cs.dropWhile (fun d => d ≠ '"')
      match rest, content with
      | '"' :: rest2, _ :: _ => some (content, rest2)
      | _, _ =>
        some ((c :: cs).takeWhile (fun d => d ≠ ','),
          (c :: cs).dropWhile (fun d => d ≠ ','))
    else if c = ',' then none
    else
      some ((c :: cs).takeWhile (fun d => d ≠ ','),
        (c :: cs).dropWhile (fun d => d ≠ ','))

/-- The repeated-`exec` scan.  `fuel` bounds the number of steps; every step
consumes at least one character, so the input length always suffices. -/
def scanAttrs : Nat → List Char → List (String × String)
  | 0, _ => []
  | _, [] => []
  | fuel + 1, c :: cs =>
    if isKeyChar c then
      match (c :: cs).dropWhile isKeyChar with
      | '=' :: rest2 =>
        match matchValue rest2 with
        | some (v, rest3) =>
          (((c :: cs).takeWhile isKeyChar).asString, v.asString) :: scanAttrs fuel rest3
        | none => scanAttrs fuel cs
      | _ => scanAttrs fuel cs
    else scanAttrs fuel cs

def parseAttributes (s : String) : List (String × String) :=
  scanAttrs s.data.length s.data

/-- JS object lookup over the scanned pairs: the last binding for a key wins. -/
def attrGet (attrs : List (String × String)) (k : String) : Option String :=
  attrs.reverse.lookup k

/-! ## HLS manifest parser (`parseHLSManifest` and friends)

The parser takes the manifest text and its absolute URL; lines are split on
`\n`, trimmed, and empties dropped.  A `#EXTM3U` first line is required.  Any
`#EXT-X-STREAM-INF` line selects master mode, else media mode.  URL
resolution through the WHATWG `URL` constructor is abstracted as the `mkUrl`
parameter (`none` models the constructor throwing).  `parseFloat` results
(segment durations, frame rates) are kept as their raw matched text, and
`Number()` (used only on `RESOLUTION`) is modelled for integral inputs —
no claim depends on those values. -/

/-- `resolveUrl`: absolute URLs pass through; otherwise `new URL(url, base)`
(the abstract `mkUrl`), falling back to the raw url if it throws. -/
def resolveUrl (mkUrl : String → String → Option String) (url baseUrl : String) :
    String :=
  if strStartsWith url "http://" || strStartsWith url "https://" then url
  else
    match mkUrl url baseUrl with
    | some href => href
    | none => url

/-- Generic `split(sep)` on char lists. -/
def splitOnCh (sep : Char) : List Char → List (List Char)
  | [] => [[]]
  | c :: cs =>
    match splitOnCh sep cs with
    | [] => [[c]]
    | x :: xs => if c = sep then [] :: x :: xs else (c :: x) :: xs

/-- `Number()` on the (integral) strings that occur in `RESOLUTION`
attributes; fractional and exotic numeric forms yield `NaN` here. -/
def jsNumber (s : String) : JSNum :=
  match trimChars s.data with
  | [] => some 0
  | '-' :: rest =>
    if !rest.isEmpty && rest.all isDigitCh then
      (digitsVal rest).map (fun n => -(n : Int))
    else none
  | l =>
    if l.all isDigitCh then (digitsVal l).map (fun n => (n : Int))
    else none

structure HLSKey where
  method : String
  uri : Option String
  iv : Option String
  keyFormat : Option String
deriving DecidableEq

structure HLSVariant where
  url : String
  bandwidth : JSNum
  codecs : Option String
  frameRate : Option String
  audio : Option String
  resolution : Option (JSNum × JSNum)
deriving DecidableEq

structure HLSAudioGroup where
  groupId : String
  name : String
  language : String
  uri : Option String
  isDefault : Bool
  autoSelect : Bool
deriving DecidableEq

structure HLSMediaSegment where
  uri : String
  duration : String
  key : Option HLSKey
deriving DecidableEq

structure HLSMasterPlaylist where
  variants : List HLSVariant
  audioGroups : List (String × List HLSAudioGroup)
  isDRM : Bool
deriving DecidableEq

structure HLSMediaPlaylist where
  targetDuration : JSNum
  segments : List HLSMediaSegment
  isDRM : Bool
  encryption : Option HLSKey
deriving DecidableEq

inductive HLSPlaylist
  | master (m : HLSMasterPlaylist)
  | media (m : HLSMediaPlaylist)
deriving DecidableEq

/-! ### Media mode (`parseMediaPlaylist`) -/

/-- The capture of `line.match(/#EXTINF:([0-9.]+)/)`: the first occurrence of
`#EXTINF:` immediately followed by at least one `[0-9.]` character, with the
maximal such run captured. -/
def extinfCapture : List Char → Option (List Char)
  | [] => none
  | c :: cs =>
    if prefixOf "#EXTINF:".data (c :: cs) then
      let ds := ((c :: cs).drop 8).takeWhile (fun d => isDigitCh d || d == '.')
      if ds.isEmpty then extinfCapture cs else some ds
    else extinfCapture cs

structure MediaSt where
  targetDuration : JSNum
  segments : List HLSMediaSegment
  isDRM : Bool
  currentKey : Option HLSKey
  segDur : String
deriving DecidableEq

/-- One line of the media-playlist loop.  The branch conditions are mutually
exclusive in the source (distinct tag prefixes; the segment branch requires
the line not to start with `#`), so the source's sequence of independent
`if`s is an if/else chain. -/
def mediaStep (mkUrl : String → String → Option String) (base : String)
    (st : MediaSt) (l : List Char) : MediaSt :=
  if prefixOf "#EXT-X-TARGETDURATION:".data l then
    { st with targetDuration := jsParseInt (l.drop 22).asString }
  else if prefixOf "#EXT-X-KEY:".data l then
    let attrs := parseAttributes (l.drop 11).asString
    let k : HLSKey :=
      { method := (attrGet attrs "METHOD").getD "NONE",
        uri := (attrGet attrs "URI").map (fun u => resolveUrl mkUrl u base),
        iv := attrGet attrs "IV",
        keyFormat := attrGet attrs "KEYFORMAT" }
    let drm1 := decide (k.method ≠ "NONE" ∧ k.method ≠ "AES-128")
    let drm2 :=
      match k.keyFormat with
      | some f => strIncludes f "widevine" || strIncludes f "fairplay"
      | none => false
    { st with currentKey := some k, isDRM := st.isDRM || drm1 || drm2 }
  else if prefixOf "#EXTINF:".data l then
    match extinfCapture l with
    | some ds => { st with segDur := ds.asString }
    | none => st
  else if !(prefixOf "#".data l) && decide (0 < l.length) then
    { st with
      segments := st.segments ++
        [{ uri := resolveUrl mkUrl l.asString base, duration := st.segDur,
           key := st.currentKey }],
      segDur := "0" }
  else st

def mediaInit : MediaSt :=
  { targetDuration := some 0, segments := [], isDRM := false,
    currentKey := none, segDur := "0" }

def parseMediaPlaylist (mkUrl : String → String → Option String)
    (base : String) (lines : List (List Char)) : HLSMediaPlaylist :=
  let st := lines.foldl (mediaStep mkUrl base) mediaInit
  { targetDuration := st.targetDuration, segments := st.segments,
    isDRM := st.isDRM, encryption := st.currentKey }

/-! ### Master mode (`parseMasterPlaylist`) -/

/-- The per-line DRM test of the master loop: substring checks only. -/
def lineDRMFlag (l : List Char) : Bool :=
  (infixOf "EXT-X-KEY".data l && infixOf "METHOD=SAMPLE-AES".data l) ||
  infixOf "com.widevine".data l || infixOf "com.apple.fps".data l

structure MasterSt where
  variants : List HLSVariant
  audioGroups : List (String × List HLSAudioGroup)
  isDRM : Bool
deriving DecidableEq

/-- Append an audio rendition to its group (`Map.get`+push / `Map.set`). -/
def groupsAdd (groups : List (String × List HLSAudioGroup)) (gid : String)
    (g : HLSAudioGroup) : List (String × List HLSAudioGroup) :=
  if (groups.lookup gid).isSome then
    groups.map (fun kv => if kv.1 = gid then (kv.1, kv.2 ++ [g]) else kv)
  else groups ++ [(gid, [g])]

/-- The `#EXT-X-MEDIA:` handling of the master loop. -/
def masterMediaStep (mkUrl : String → String → Option String) (base : String)
    (st : MasterSt) (l : List Char) : MasterSt :=
  if prefixOf "#EXT-X-MEDIA:".data l then
    let attrs := parseAttributes (l.drop 13).asString
    if attrGet attrs "TYPE" = some "AUDIO" then
      let gid := (attrGet attrs "GROUP-ID").getD "default"
      let g : HLSAudioGroup :=
        { groupId := gid,
          name := (attrGet attrs "NAME").getD "Audio",
          language := (attrGet attrs "LANGUAGE").getD "und",
          uri := (attrGet attrs "URI").map (fun u => resolveUrl mkUrl u base),
          isDefault := attrGet attrs "DEFAULT" == some "YES",
          autoSelect := attrGet attrs "AUTOSELECT" == some "YES" }
      { st with audioGroups := groupsAdd st.audioGroups gid g }
    else st
  else st

/-- Build one variant from a `#EXT-X-STREAM-INF:` line and the following URL
line. -/
def mkVariant (mkUrl : String → String → Option String) (base : String)
    (l next : List Char) : HLSVariant :=
  let attrs := parseAttributes (l.drop 18).asString
  { url := resolveUrl mkUrl next.asString base,
    bandwidth := jsParseInt ((attrGet attrs "BANDWIDTH").getD "0"),
    codecs := attrGet attrs "CODECS",
    frameRate := attrGet attrs "FRAME-RATE",
    audio := attrGet attrs "AUDIO",
    resolution := (attrGet attrs "RESOLUTION").map (fun r =>
      let parts := (splitOnCh 'x' r.data).map (fun p => jsNumber p.asString)
      ((parts.get? 0).getD none, (parts.get? 1).getD none)) }

/-- The per-iteration DRM latch of the master loop. -/
def drmStep (l : List Char) (st : MasterSt) : MasterSt :=
  { st with isDRM := st.isDRM || lineDRMFlag l }

/-- The master loop: `#EXT-X-MEDIA:` handling, `#EXT-X-STREAM-INF:` variant
collection (consuming the following non-comment line as the variant URL, so
that consumed URL lines are never themselves inspected), and the substring
DRM checks applied to every inspected line. -/
def masterLoop (mkUrl : String → String → Option String) (base : String) :
    List (List Char) → MasterSt → MasterSt
  | [], st => st
  | [l], st => drmStep l (masterMediaStep mkUrl base st l)
  | l :: next :: rest2, st =>
    let st1 := masterMediaStep mkUrl base st l
    if prefixOf "#EXT-X-STREAM-INF:".data l then
      if prefixOf "#".data next then
        masterLoop mkUrl base (next :: rest2) (drmStep l st1)
      else
        masterLoop mkUrl base rest2
          (drmStep l { st1 with variants := st1.variants ++ [mkVariant mkUrl base l next] })
    else
      masterLoop mkUrl base (next :: rest2) (drmStep l st1)

/-! ### JS `Array.prototype.sort` with a numeric comparator

Per the ECMAScript `SortCompare` step, a comparator result of `NaN` is
treated as `+0`.  The sort itself is modelled by a stable insertion sort, a
valid implementation of the (stable) `Array.prototype.sort`. -/

def jsSub (a b : JSNum) : JSNum :=
  match a, b with
  | some x, some y => some (x - y)
  | _, _ => none

/-- `SortCompare`: the comparator's number, with `NaN` mapped to `+0`. -/
def sortCompare (v : JSNum) : Int :=
  match v with
  | some i => i
  | none => 0

def insCmp (cmp : α → α → Int) (x : α) : List α → List α
  | [] => [x]
  | y :: ys => if cmp x y < 0 then x :: y :: ys else y :: insCmp cmp x ys

def sortJS (cmp : α → α → Int) : List α → List α
  | [] => []
  | x :: xs => insCmp cmp x (sortJS cmp xs)

/-- The descending-bandwidth comparator `(a, b) => b.bandwidth - a.bandwidth`. -/
def cmpBwDesc (key : α → JSNum) (a b : α) : Int :=
  sortCompare (jsSub (key b) (key a))

/-- The ascending-bandwidth comparator `(a, b) => a.bandwidth - b.bandwidth`. -/
def cmpBwAsc (key : α → JSNum) (a b : α) : Int :=
  sortCompare (jsSub (key a) (key b))

def parseMasterPlaylist (mkUrl : String → String → Option String)
    (base : String) (lines : List (List Char)) : HLSMasterPlaylist :=
  let st := masterLoop mkUrl base lines
    { variants := [], audioGroups := [], isDRM := false }
  { variants := sortJS (cmpBwDesc HLSVariant.bandwidth) st.variants,
    audioGroups := st.audioGroups, isDRM := st.isDRM }

/-- `parseHLSManifest`: split/trim/filter the lines, require the `#EXTM3U`
header, dispatch on the presence of a `#EXT-X-STREAM-INF` line. -/
def parseHLSManifest (mkUrl : String → String → Option String)
    (content baseUrl : String) : Except String HLSPlaylist :=
  let lines := ((splitOnNl content.data).map trimChars).filter
    (fun l => !l.isEmpty)
  match lines with
  | [] => .error "Invalid HLS manifest: missing #EXTM3U header"
  | l0 :: _ =>
    if !(prefixOf "#EXTM3U".data l0) then
      .error "Invalid HLS manifest: missing #EXTM3U header"
    else if lines.any (fun l => prefixOf "#EXT-X-STREAM-INF".data l) then
      .ok (.master (parseMasterPlaylist mkUrl baseUrl lines))
    else
      .ok (.media (parseMediaPlaylist mkUrl baseUrl lines))

/-- `getHLSProtection`. -/
def getHLSProtection (p : HLSPlaylist) : String :=
  match p with
  | .master m => if m.isDRM then "drm" else "none"
  | .media m =>
    if m.isDRM then "drm"
    else if m.encryption.map HLSKey.method = some "AES-128" then "none"
    else "none"

/-! ### Claim C6 — protection detection (`is_drm`)

The claim states a single rule covering both modes: key `METHOD` outside
{`NONE`, `AES-128`}, `KEYFORMAT` containing `widevine`/`fairplay`, or raw
`com.widevine`/`com.apple.fps` occurrences in a master manifest.  The code's
media mode indeed parses each `#EXT-X-KEY:` line and applies the first two
rules; its master mode, however, never parses key attributes — it only
substring-tests each inspected line for `EXT-X-KEY` together with
`METHOD=SAMPLE-AES`, or for the two raw DRM markers. -/

/-- The claim's protection rule, stated from the claim's words, for
comparison with the code's `isDRM`. -/
def claimC6Rule (content : String) : Bool :=
  let lines := ((splitOnNl content.data).map trimChars).filter (fun l => !l.isEmpty)
  let keyAttrs := (lines.filter (fun l => prefixOf "#EXT-X-KEY:".data l)).map
    (fun l => parseAttributes (l.drop 11).asString)
  let isMaster := lines.any (fun l => prefixOf "#EXT-X-STREAM-INF".data l)
  keyAttrs.any (fun a =>
    decide ((attrGet a "METHOD").getD "NONE" ≠ "NONE" ∧
      (attrGet a "METHOD").getD "NONE" ≠ "AES-128")) ||
  keyAttrs.any (fun a =>
    match attrGet a "KEYFORMAT" with
    | some f => strIncludes f "widevine" || strIncludes f "fairplay"
    | none => false) ||
  (isMaster && lines.any (fun l =>
    infixOf "com.widevine".data l || infixOf "com.apple.fps".data l))

/-- The `is_drm` flag of a parsed playlist. -/
def hlsIsDRM (p : HLSPlaylist) : Bool :=
  match p with
  | .master m => m.isDRM
  | .media m => m.isDRM

/-- Models the `URL` constructor throwing (e.g. a relative base), so
`resolveUrl` falls back to the raw string. -/
def urlCtor0 : String → String → Option String := fun _ _ => none

/-- A master manifest carrying a key line whose METHOD is outside
{NONE, AES-128} but is not SAMPLE-AES. -/
def hlsC6Manifest : String :=
  "#EXTM3U\n#EXT-X-KEY:METHOD=AES-CTR,URI=\"k\"\n#EXT-X-STREAM-INF:BANDWIDTH=1000\nv.m3u8"

/-- C6 counterexample: on a master manifest whose key METHOD is `AES-CTR`
(outside {NONE, AES-128}), the claim's rule demands `is_drm = true`, but the
code's master mode only substring-matches `METHOD=SAMPLE-AES` and the raw
markers, so it reports `is_drm = false` and protection `none` — the claimed
"if and only if" fails in the only-if→if direction for master manifests. -/
theorem C6_master_method_rule_diverges :
    (parseHLSManifest urlCtor0 hlsC6Manifest "b").toOption.map hlsIsDRM =
        some false ∧
    (parseHLSManifest urlCtor0 hlsC6Manifest "b").toOption.map getHLSProtection =
        some "none" ∧
    claimC6Rule hlsC6Manifest = true := by
  refine ⟨by decide, by decide, by decide⟩

/-- The code's per-key-line DRM rule in media mode (matches the claim's first
two disjuncts). -/
def mediaLineDRM (l : List Char) : Bool :=
  prefixOf "#EXT-X-KEY:".data l &&
    (let attrs := parseAttributes (l.drop 11).asString
     let m := (attrGet attrs "METHOD").getD "NONE"
     decide (m ≠ "NONE" ∧ m ≠ "AES-128") ||
       (match attrGet attrs "KEYFORMAT" with
        | some f => strIncludes f "widevine" || strIncludes f "fairplay"
        | none => false))

/-- The lines the master loop actually inspects: every line except a
variant-URI line consumed by the preceding `#EXT-X-STREAM-INF:`. -/
def masterScanLines : List (List Char) → List (List Char)
  | [] => []
  | [l] => [l]
  | l :: next :: rest2 =>
    if prefixOf "#EXT-X-STREAM-INF:".data l then
      if prefixOf "#".data next then l :: masterScanLines (next :: rest2)
      else l :: masterScanLines rest2
    else l :: masterScanLines (next :: rest2)

theorem prefixOf_get (p l : List Char) (h : prefixOf p l = true) :
    ∀ i, i < p.length → l.get? i = p.get? i := by
  induction p generalizing l with
  | nil =>
    intro i hi
    simp at hi
  | cons a as ih =>
    cases l with
    | nil => simp [prefixOf] at h
    | cons b bs =>
      simp only [prefixOf, Bool.and_eq_true, beq_iff_eq] at h
      intro i hi
      cases i with
      | zero => simp [h.1]
      | succ i =>
        simpa using ih bs h.2 i (by simpa using hi)

theorem prefixOf_excl (p q l : List Char) (i : Nat) (hip : i < p.length)
    (hiq : i < q.length) (hne : p.get? i ≠ q.get? i)
    (h : prefixOf p l = true) : prefixOf q l = false := by
  by_contra hq
  rw [Bool.not_eq_false] at hq
  exact hne ((prefixOf_get p l h i hip).symm.trans (prefixOf_get q l hq i hiq))

/-- One media-loop step latches `isDRM` by exactly the per-line rule. -/
theorem mediaStep_isDRM (mkUrl : String → String → Option String)
    (base : String) (st : MediaSt) (l : List Char) :
    (mediaStep mkUrl base st l).isDRM = (st.isDRM || mediaLineDRM l) := by
  by_cases h1 : prefixOf "#EXT-X-TARGETDURATION:".data l = true
  · have hk : prefixOf "#EXT-X-KEY:".data l = false :=
      prefixOf_excl _ _ l 7 (by decide) (by decide) (by decide) h1
    simp [mediaStep, h1, mediaLineDRM, hk]
  · rw [Bool.not_eq_true] at h1
    by_cases h2 : prefixOf "#EXT-X-KEY:".data l = true
    · simp only [mediaStep, h1, Bool.false_eq_true, if_false, h2, if_true,
        mediaLineDRM, Bool.true_and]
      simp [Bool.or_assoc]
    · rw [Bool.not_eq_true] at h2
      simp only [mediaLineDRM, h2, Bool.false_and]
      by_cases h3 : prefixOf "#EXTINF:".data l = true
      · simp only [mediaStep, h1, h2, Bool.false_eq_true, if_false, h3, if_true]
        cases hx : extinfCapture l <;> simp
      · rw [Bool.not_eq_true] at h3
        by_cases h4 : (!(prefixOf "#".data l) && decide (0 < l.length)) = true
        · simp [mediaStep, h1, h2, h3, h4]
        · rw [Bool.not_eq_true] at h4
          simp [mediaStep, h1, h2, h3, h4]

theorem media_foldl_isDRM (mkUrl : String → String → Option String)
    (base : String) :
    ∀ (lines : List (List Char)) (st : MediaSt),
      (lines.foldl (mediaStep mkUrl base) st).isDRM =
        (st.isDRM || lines.any mediaLineDRM) := by
  intro lines
  induction lines with
  | nil => intro st; simp
  | cons l ls ih =>
    intro st
    rw [List.foldl_cons, ih, mediaStep_isDRM]
    simp [Bool.or_assoc]

theorem masterMediaStep_isDRM (mkUrl : String → String → Option String)
    (base : String) (st : MasterSt) (l : List Char) :
    (masterMediaStep mkUrl base st l).isDRM = st.isDRM := by
  unfold masterMediaStep
  by_cases h : prefixOf "#EXT-X-MEDIA:".data l = true
  · simp only [h, if_true]
    by_cases h2 : attrGet (parseAttributes (l.drop 13).asString) "TYPE" = some "AUDIO" <;>
      simp [h2]
  · rw [Bool.not_eq_true] at h
    simp [h]

theorem masterLoop_isDRM (mkUrl : String → String → Option String)
    (base : String) :
    ∀ (lines : List (List Char)) (st : MasterSt),
      (masterLoop mkUrl base lines st).isDRM =
        (st.isDRM || (masterScanLines lines).any lineDRMFlag) := by
  intro lines
  induction lines using masterScanLines.induct with
  | case1 =>
    intro st
    simp [masterLoop, masterScanLines]
  | case2 l =>
    intro st
    simp [masterLoop, masterScanLines, drmStep, masterMediaStep_isDRM]
  | case3 l next rest2 hinf hnext ih =>
    intro st
    rw [masterLoop, masterScanLines]
    simp only [hinf, hnext, if_true]
    rw [ih]
    simp [drmStep, masterMediaStep_isDRM, Bool.or_assoc]
  | case4 l next rest2 hinf hnext ih =>
    intro st
    rw [masterLoop, masterScanLines]
    simp only [hinf, hnext, if_true, Bool.false_eq_true, if_false]
    rw [ih]
    simp [drmStep, masterMediaStep_isDRM, Bool.or_assoc]
  | case5 l next rest2 hinf ih =>
    intro st
    rw [masterLoop, masterScanLines]
    simp only [hinf, Bool.false_eq_true, if_false]
    rw [ih]
    simp [drmStep, masterMediaStep_isDRM, Bool.or_assoc]

/-- The AES-128 media playlist of the claim's example. -/
def aes128Manifest : String :=
  "#EXTM3U\n#EXT-X-KEY:METHOD=AES-128,URI=\"k.bin\"\n#EXTINF:4.0,\nseg1.ts"

def aes128Key : HLSKey :=
  { method := "AES-128", uri := some "k.bin", iv := none, keyFormat := none }

def aes128Playlist : HLSMediaPlaylist :=
  { targetDuration := some 0,
    segments := [{ uri := "seg1.ts", duration := "4.0", key := some aes128Key }],
    isDRM := false, encryption := some aes128Key }

/-- C6 amended: protection detection as the code implements it.  In media
mode, `is_drm` holds iff some `#EXT-X-KEY:` line has a parsed METHOD outside
{NONE, AES-128} or a KEYFORMAT containing `widevine`/`fairplay` (the claim's
first two disjuncts).  In master mode, `is_drm` holds iff some inspected line
(all lines except consumed variant-URI lines) contains both `EXT-X-KEY` and
`METHOD=SAMPLE-AES` as substrings, or contains `com.widevine` or
`com.apple.fps` — key attributes are never parsed there.  A media playlist
whose only key uses METHOD=AES-128 yields `is_drm = false` and protection
`none`. -/
theorem C6_isDRM_characterization (mkUrl : String → String → Option String)
    (base : String) (lines : List (List Char)) :
    (parseMediaPlaylist mkUrl base lines).isDRM = lines.any mediaLineDRM ∧
    (parseMasterPlaylist mkUrl base lines).isDRM =
      (masterScanLines lines).any lineDRMFlag ∧
    parseHLSManifest urlCtor0 aes128Manifest "b" = .ok (.media aes128Playlist) ∧
    getHLSProtection (.media aes128Playlist) = "none" := by
  refine ⟨?_, ?_, by decide, by decide⟩
  · rw [parseMediaPlaylist]
    simp only
    rw [media_foldl_isDRM]
    simp [mediaInit]
  · rw [parseMasterPlaylist]
    simp only
    rw [masterLoop_isDRM]
    simp

/-! ### Sortedness of the JS sort (for claim C8)

`bwGe x y` is the "descending" order on possibly-NaN bandwidths: for two
numeric values it is `y ≤ x`, and a pair involving `NaN` is unconstrained
(the comparator returns a `NaN` difference, which ECMAScript's `SortCompare`
treats as `+0`, i.e. "equal"). -/

def bwGe (x y : JSNum) : Prop :=
  match x, y with
  | some a, some b => b ≤ a
  | _, _ => True

theorem mem_insCmp (cmp : α → α → Int) (x z : α) :
    ∀ l : List α, z ∈ insCmp cmp x l ↔ z = x ∨ z ∈ l := by
  intro l
  induction l with
  | nil => simp [insCmp]
  | cons y ys ih =>
    by_cases hc : cmp x y < 0
    · rw [insCmp, if_pos hc]
      simp
    · rw [insCmp, if_neg hc]
      simp only [List.mem_cons, ih]
      tauto

theorem insCmp_pairwise (cmp : α → α → Int) (R : α → α → Prop)
    (h1 : ∀ a b, cmp a b < 0 → R a b)
    (h2 : ∀ a b, ¬ cmp a b < 0 → R b a)
    (h3 : ∀ a b c, cmp a b < 0 → R b c → R a c)
    (x : α) : ∀ l : List α, l.Pairwise R → (insCmp cmp x l).Pairwise R := by
  intro l
  induction l with
  | nil =>
    intro _
    simp [insCmp]
  | cons y ys ih =>
    intro hp
    rw [List.pairwise_cons] at hp
    obtain ⟨hy, hys⟩ := hp
    by_cases hc : cmp x y < 0
    · rw [insCmp, if_pos hc, List.pairwise_cons]
      constructor
      · intro z hz
        rcases List.mem_cons.mp hz with rfl | hz2
        · exact h1 x z hc
        · exact h3 x y z hc (hy z hz2)
      · exact List.pairwise_cons.mpr ⟨hy, hys⟩
    · rw [insCmp, if_neg hc, List.pairwise_cons]
      constructor
      · intro z hz
        rcases (mem_insCmp cmp x z ys).mp hz with rfl | hz2
        · exact h2 z y hc
        · exact hy z hz2
      · exact ih hys

theorem sortJS_pairwise (cmp : α → α → Int) (R : α → α → Prop)
    (h1 : ∀ a b, cmp a b < 0 → R a b)
    (h2 : ∀ a b, ¬ cmp a b < 0 → R b a)
    (h3 : ∀ a b c, cmp a b < 0 → R b c → R a c) :
    ∀ l : List α, (sortJS cmp l).Pairwise R := by
  intro l
  induction l with
  | nil => simp [sortJS]
  | cons x xs ih =>
    rw [sortJS]
    exact insCmp_pairwise cmp R h1 h2 h3 x (sortJS cmp xs) ih

theorem cmpBwDesc_lt (key : α → JSNum) (a b : α)
    (h : cmpBwDesc key a b < 0) :
    ∃ x y : Int, key a = some x ∧ key b = some y ∧ y < x := by
  rcases ha : key a with _ | x <;> rcases hb : key b with _ | y <;>
    simp only [cmpBwDesc, jsSub, ha, hb, sortCompare] at h
  · omega
  · omega
  · omega
  · exact ⟨x, y, rfl, rfl, by omega⟩

theorem sortJS_desc_pairwise (key : α → JSNum) (l : List α) :
    (sortJS (cmpBwDesc key) l).Pairwise (fun a b => bwGe (key a) (key b)) := by
  apply sortJS_pairwise
  · intro a b h
    obtain ⟨x, y, hx, hy, hxy⟩ := cmpBwDesc_lt key a b h
    simp [bwGe, hx, hy]
    omega
  · intro a b h
    rcases ha : key a with _ | x <;> rcases hb : key b with _ | y <;>
      simp [bwGe, ha, hb]
    simp only [cmpBwDesc, jsSub, ha, hb, sortCompare] at h
    omega
  · intro a b c h hbc
    obtain ⟨x, y, hx, hy, hxy⟩ := cmpBwDesc_lt key a b h
    rcases hc : key c with _ | z
    · simp [bwGe, hx, hc]
    · simp only [bwGe, hy, hc] at hbc
      simp [bwGe, hx, hc]
      omega

theorem cmpBwAsc_lt (key : α → JSNum) (a b : α)
    (h : cmpBwAsc key a b < 0) :
    ∃ x y : Int, key a = some x ∧ key b = some y ∧ x < y := by
  rcases ha : key a with _ | x <;> rcases hb : key b with _ | y <;>
    simp only [cmpBwAsc, jsSub, ha, hb, sortCompare] at h
  · omega
  · omega
  · omega
  · exact ⟨x, y, rfl, rfl, by omega⟩

theorem sortJS_asc_pairwise (key : α → JSNum) (l : List α) :
    (sortJS (cmpBwAsc key) l).Pairwise (fun a b => bwGe (key b) (key a)) := by
  apply sortJS_pairwise
  · intro a b h
    obtain ⟨x, y, hx, hy, hxy⟩ := cmpBwAsc_lt key a b h
    simp [bwGe, hx, hy]
    omega
  · intro a b h
    rcases ha : key a with _ | x <;> rcases hb : key b with _ | y <;>
      simp [bwGe, ha, hb]
    simp only [cmpBwAsc, jsSub, ha, hb, sortCompare] at h
    omega
  · intro a b c h hbc
    obtain ⟨x, y, hx, hy, hxy⟩ := cmpBwAsc_lt key a b h
    rcases hc : key c with _ | z
    · simp [bwGe, hx, hc]
    · simp only [bwGe, hy, hc] at hbc
      simp [bwGe, hx, hc]
      omega

/-! ## DASH parser (adaptation sets, representations, segment templates)

The DASH parser consumes the XML document tree.  `DOMParser` (string → tree)
is external; the tree traversal itself is the repository's logic, so the
embedding starts from an element tree.  `XElem` carries tag name, attributes,
text content and child elements; `querySelectorAll` with a tag selector is
the preorder descendant traversal, `:scope > T` the direct-child filter. -/

inductive XElem where
  | mk (tag : String) (attrs : List (String × String)) (text : String)
      (children : List XElem)

def XElem.tag : XElem → String
  | .mk t _ _ _ => t

def XElem.attrs : XElem → List (String × String)
  | .mk _ a _ _ => a

def XElem.text : XElem → String
  | .mk _ _ x _ => x

def XElem.children : XElem → List XElem
  | .mk _ _ _ c => c

/-- `getAttribute`: the attribute's value, or null (`none`). -/
def getAttr (e : XElem) (name : String) : Option String :=
  e.attrs.lookup name

/-- JS `x || 'dflt'` on an attribute value (null and the empty string are
falsy). -/
def jsOr (o : Option String) (dflt : String) : String :=
  match o with
  | some s => if s = "" then dflt else s
  | none => dflt

/-- JS `x || undefined` / `x ? f(x) : undefined` guard on an attribute. -/
def jsOpt (o : Option String) : Option String :=
  match o with
  | some s => if s = "" then none else some s
  | none => none

mutual
/-- All descendants of an element, in document (preorder) order. -/
def descsE : XElem → List XElem
  | .mk _ _ _ ch => descsL ch

def descsL : List XElem → List XElem
  | [] => []
  | c :: cs => c :: (descsE c ++ descsL cs)
end

/-- `querySelectorAll('T')` for a tag selector. -/
def selAll (e : XElem) (tag : String) : List XElem :=
  (descsE e).filter (fun c => c.tag = tag)

/-- `querySelector('T')`. -/
def sel1 (e : XElem) (tag : String) : Option XElem :=
  (selAll e tag).head?

/-- `querySelector(':scope > T')`: first direct child with the tag. -/
def selChild (e : XElem) (tag : String) : Option XElem :=
  (e.children.filter (fun c => c.tag = tag)).head?

/-- An `S` entry of a `SegmentTimeline` (`t`/`d`/`r`). -/
structure DASHSegmentTimelineEntry where
  start : Option JSNum
  duration : JSNum
  repeatCount : Option JSNum
deriving DecidableEq

structure DASHSegmentTemplate where
  media : String
  initialization : Option String
  startNumber : JSNum
  timescale : JSNum
  duration : Option JSNum
  timeline : Option (List DASHSegmentTimelineEntry)
deriving DecidableEq

structure DASHSegmentList where
  initialization : Option String
  segments : List String
deriving DecidableEq

structure DASHRepresentation where
  id : String
  bandwidth : JSNum
  width : Option JSNum
  height : Option JSNum
  frameRate : Option String
  codecs : Option String
  mimeType : Option String
  baseUrl : Option String
  segmentTemplate : Option DASHSegmentTemplate
  segmentList : Option DASHSegmentList
deriving DecidableEq

inductive ContentType
  | video | audio | text
deriving DecidableEq

structure DASHContentProtection where
  schemeIdUri : String
  value : Option String
  pssh : Option String
deriving DecidableEq

structure DASHAdaptationSet where
  id : String
  mimeType : String
  contentType : ContentType
  lang : Option String
  representations : List DASHRepresentation
  contentProtection : List DASHContentProtection
deriving DecidableEq

/-- `parseSegmentTemplate` (`undefined` when the element is absent). -/
def parseSegmentTemplate (el : Option XElem) : Option DASHSegmentTemplate :=
  match el with
  | none => none
  | some e =>
    some
      { media := jsOr (getAttr e "media") "",
        initialization := jsOpt (getAttr e "initialization"),
        startNumber := jsParseInt (jsOr (getAttr e "startNumber") "1"),
        timescale := jsParseInt (jsOr (getAttr e "timescale") "1"),
        duration := (jsOpt (getAttr e "duration")).map jsParseInt,
        timeline :=
          match sel1 e "SegmentTimeline" with
          | none => none
          | some tl =>
            some ((selAll tl "S").map (fun se =>
              { start := (jsOpt (getAttr se "t")).map jsParseInt,
                duration := jsParseInt (jsOr (getAttr se "d") "0"),
                repeatCount := (jsOpt (getAttr se "r")).map jsParseInt })) }

def parseSegmentList (mkUrl : String → String → Option String) (e : XElem)
    (baseUrl : String) : DASHSegmentList :=
  { initialization :=
      match sel1 e "Initialization" with
      | some ini => jsOpt (getAttr ini "sourceURL")
      | none => none,
    segments := (selAll e "SegmentURL").filterMap (fun seg =>
      (jsOpt (getAttr seg "media")).map (fun m => resolveUrl mkUrl m baseUrl)) }

def parseRepresentation (mkUrl : String → String → Option String) (e : XElem)
    (baseUrl : String) (parentTemplate : Option DASHSegmentTemplate) :
    DASHRepresentation :=
  { id := jsOr (getAttr e "id") "",
    bandwidth := jsParseInt (jsOr (getAttr e "bandwidth") "0"),
    width := (jsOpt (getAttr e "width")).map jsParseInt,
    height := (jsOpt (getAttr e "height")).map jsParseInt,
    frameRate := jsOpt (getAttr e "frameRate"),
    codecs := jsOpt (getAttr e "codecs"),
    mimeType := jsOpt (getAttr e "mimeType"),
    baseUrl :=
      match sel1 e "BaseURL" with
      | some b => (jsOpt (some b.text)).map (fun t => resolveUrl mkUrl t baseUrl)
      | none => none,
    segmentTemplate :=
      match parseSegmentTemplate (selChild e "SegmentTemplate") with
      | some t => some t
      | none => parentTemplate,
    segmentList := (sel1 e "SegmentList").map
      (fun sl => parseSegmentList mkUrl sl baseUrl) }

/-- `parseAdaptationSet`: content-type classification, `ContentProtection`
collection, template inheritance, representation parsing, and the
bandwidth sort (descending for video, ascending otherwise). -/
def parseAdaptationSet (mkUrl : String → String → Option String) (e : XElem)
    (baseUrl : String) : DASHAdaptationSet :=
  let mimeType := jsOr (getAttr e "mimeType") ""
  let contentType : ContentType :=
    if strIncludes mimeType "audio" || getAttr e "contentType" = some "audio" then
      .audio
    else if strIncludes mimeType "text" || getAttr e "contentType" = some "text" then
      .text
    else .video
  let contentProtection : List DASHContentProtection :=
    (selAll e "ContentProtection").map (fun cp =>
      { schemeIdUri := jsOr (getAttr cp "schemeIdUri") "",
        value := jsOpt (getAttr cp "value"),
        pssh :=
          match (descsE cp).find? (fun d => d.tag = "pssh" || d.tag = "cenc:pssh") with
          | some p => jsOpt (some p.text)
          | none => none })
  let asTemplate := parseSegmentTemplate (selChild e "SegmentTemplate")
  let reps := (selAll e "Representation").map
    (fun r => parseRepresentation mkUrl r baseUrl asTemplate)
  { id := jsOr (getAttr e "id") "",
    mimeType := mimeType,
    contentType := contentType,
    lang := jsOpt (getAttr e "lang"),
    representations :=
      if contentType = .video then
        sortJS (cmpBwDesc DASHRepresentation.bandwidth) reps
      else
        sortJS (cmpBwAsc DASHRepresentation.bandwidth) reps,
    contentProtection := contentProtection }

/-! ### Claim C8 — bandwidth ordering invariants -/

instance (x y : JSNum) : Decidable (bwGe x y) :=
  match x, y with
  | some a, some b => inferInstanceAs (Decidable (b ≤ a))
  | some _, none => .isTrue trivial
  | none, some _ => .isTrue trivial
  | none, none => .isTrue trivial

/-- C8: every parsed HLS master playlist has its variants in descending
bandwidth order, and every parsed DASH adaptation set has its
representations in descending bandwidth order when its content type is video
and in ascending order otherwise.  (`bwGe` compares numeric bandwidths;
pairs involving a `NaN` bandwidth are unordered by the comparator, which
ECMAScript's `SortCompare` treats as equal.) -/
theorem C8_bandwidth_sorted (mkUrl : String → String → Option String)
    (base : String) (lines : List (List Char)) (e : XElem) (burl : String) :
    (parseMasterPlaylist mkUrl base lines).variants.Pairwise
        (fun a b => bwGe a.bandwidth b.bandwidth) ∧
    ((parseAdaptationSet mkUrl e burl).contentType = .video →
      (parseAdaptationSet mkUrl e burl).representations.Pairwise
        (fun a b => bwGe a.bandwidth b.bandwidth)) ∧
    ((parseAdaptationSet mkUrl e burl).contentType ≠ .video →
      (parseAdaptationSet mkUrl e burl).representations.Pairwise
        (fun a b => bwGe b.bandwidth a.bandwidth)) := by
  refine ⟨?_, ?_, ?_⟩
  · rw [parseMasterPlaylist]
    exact sortJS_desc_pairwise HLSVariant.bandwidth _
  · intro hv
    rw [parseAdaptationSet] at hv ⊢
    simp only at hv ⊢
    rw [if_pos hv]
    exact sortJS_desc_pairwise DASHRepresentation.bandwidth _
  · intro hv
    rw [parseAdaptationSet] at hv ⊢
    simp only at hv ⊢
    rw [if_neg hv]
    exact sortJS_asc_pairwise DASHRepresentation.bandwidth _

/-- A video adaptation set with representations listed ascending (so the
sort must reverse them). -/
def videoAS : XElem :=
  .mk "AdaptationSet" [("mimeType", "video/mp4")] ""
    [.mk "Representation" [("id", "v1"), ("bandwidth", "800000")] "" [],
     .mk "Representation" [("id", "v2"), ("bandwidth", "2400000")] "" []]

/-- An audio adaptation set with representations listed descending. -/
def audioAS : XElem :=
  .mk "AdaptationSet" [("mimeType", "audio/mp4")] ""
    [.mk "Representation" [("id", "a1"), ("bandwidth", "128000")] "" [],
     .mk "Representation" [("id", "a2"), ("bandwidth", "64000")] "" []]

theorem C8Witness_bandwidth_sorted :
    (parseAdaptationSet urlCtor0 videoAS "b").representations.Pairwise
        (fun a b => bwGe a.bandwidth b.bandwidth) ∧
    (parseAdaptationSet urlCtor0 audioAS "b").representations.Pairwise
        (fun a b => bwGe b.bandwidth a.bandwidth) :=
  ⟨(C8_bandwidth_sorted urlCtor0 "x" [] videoAS "b").2.1 (by decide),
   (C8_bandwidth_sorted urlCtor0 "x" [] audioAS "b").2.2 (by decide)⟩

/-! ### Segment URL materialization (`generateSegmentUrls`) — claim C7

`replaceVars` reproduces the source's per-variable pair of global regex
replacements: first the plain `\$Key\$` occurrences, then the
width-formatted `\$Key%(\\d+)d\$` occurrences (zero-padding the decimal
rendering of the value), in the object-literal insertion order
RepresentationID, Number, Time, Bandwidth. -/

def jsNumToString (v : JSNum) : String :=
  match v with
  | some i => toString i
  | none => "NaN"

def jsAdd (a b : JSNum) : JSNum :=
  match a, b with
  | some x, some y => some (x + y)
  | _, _ => none

/-- `segment.repeat || 0` (undefined, `NaN` and `0` are all falsy → `0`). -/
def jsRepeatOrZero (r : Option JSNum) : Int :=
  match r with
  | some (some v) => v
  | some none => 0
  | none => 0

/-- Global replacement of a literal pattern, non-overlapping, left to right.
`fuel` bounds the scan; the subject length always suffices since each step
consumes at least one subject character. -/
def replaceAllLit (pat repl : List Char) : Nat → List Char → List Char
  | _, [] => []
  | 0, s => s
  | fuel + 1, c :: cs =>
    if prefixOf pat (c :: cs) && !pat.isEmpty then
      repl ++ replaceAllLit pat repl fuel ((c :: cs).drop pat.length)
    else c :: replaceAllLit pat repl fuel cs

/-- `String(value).padStart(width, '0')`. -/
def padStartZeros (s : List Char) (w : Nat) : List Char :=
  if s.length < w then List.replicate (w - s.length) '0' ++ s else s

/-- Global replacement of the width-formatted pattern `\$Key%(\\d+)d\$`. -/
def replaceFmt (key repl : List Char) : Nat → List Char → List Char
  | _, [] => []
  | 0, s => s
  | fuel + 1, c :: cs =>
    if prefixOf ('$' :: (key ++ ['%'])) (c :: cs) then
      let after := (c :: cs).drop ('$' :: (key ++ ['%'])).length
      match after.takeWhile isDigitCh, after.dropWhile isDigitCh with
      | ds@(_ :: _), 'd' :: '$' :: rest2 =>
        match digitsVal ds with
        | some w => padStartZeros repl w ++ replaceFmt key repl fuel rest2
        | none => c :: replaceFmt key repl fuel cs
      | _, _ => c :: replaceFmt key repl fuel cs
    else c :: replaceFmt key repl fuel cs

def replaceVarPair (key v : String) (s : List Char) : List Char :=
  let s1 := replaceAllLit ('$' :: (key.data ++ ['$'])) v.data s.length s
  replaceFmt key.data v.data s1.length s1

def replaceVars (media rid : String) (num time bw : JSNum) : String :=
  (replaceVarPair "Bandwidth" (jsNumToString bw)
    (replaceVarPair "Time" (jsNumToString time)
      (replaceVarPair "Number" (jsNumToString num)
        (replaceVarPair "RepresentationID" rid media.data)))).asString

/-- The inner `for (let i = 0; i < repeat; i++)` loop of the timeline
branch: emit one URL per iteration, advancing `time` by `d` and `number` by
one.  Returns the URLs and the final `(time, number)`. -/
def genInner (mkUrl : String → String → Option String) (media rid : String)
    (bw : JSNum) (rbase : String) (d : JSNum) :
    Nat → JSNum → JSNum → List String × JSNum × JSNum
  | 0, t, n => ([], t, n)
  | k + 1, t, n =>
    let url := resolveUrl mkUrl (replaceVars media rid n t bw) rbase
    let out := genInner mkUrl media rid bw rbase d k (jsAdd t d) (jsAdd n (some 1))
    (url :: out.1, out.2)

/-- The `for (const segment of template.timeline)` loop: reset `time` on an
explicit `t=`, run `(repeat || 0) + 1` inner iterations. -/
def genTimeline (mkUrl : String → String → Option String) (media rid : String)
    (bw : JSNum) (rbase : String) :
    List DASHSegmentTimelineEntry → JSNum → JSNum → List String
  | [], _, _ => []
  | seg :: rest, time, number =>
    let t0 := match seg.start with | some v => v | none => time
    let out := genInner mkUrl media rid bw rbase seg.duration
      (jsRepeatOrZero seg.repeatCount + 1).toNat t0 number
    out.1 ++ genTimeline mkUrl media rid bw rbase rest out.2.1 out.2.2

/-- `generateSegmentUrls`: timeline-based expansion when the template has a
`SegmentTimeline`; the `duration`-only branch deliberately yields no URLs;
an explicit `SegmentList` is used only when no template exists. -/
def generateSegmentUrls (mkUrl : String → String → Option String)
    (rep : DASHRepresentation) (baseUrl : String) : List String :=
  match rep.segmentTemplate with
  | some template =>
    match template.timeline with
    | some tl =>
      genTimeline mkUrl template.media rep.id rep.bandwidth
        (jsOr rep.baseUrl baseUrl) tl (some 0) template.startNumber
    | none => []
  | none =>
    match rep.segmentList with
    | some sl => sl.segments
    | none => []

/-! Closed forms for the loop, used to state C7. -/

/-- `t + i·d` as the loop computes it by `i` additions (`NaN` propagates;
zero iterations leave `t` untouched). -/
def jsAddMulNat (t d : JSNum) (k : Nat) : JSNum :=
  if k = 0 then t
  else
    match t, d with
    | some tv, some dv => some (tv + dv * (k : Int))
    | _, _ => none

/-- `n + k` (`NaN` propagates). -/
def jsAddNat (n : JSNum) (k : Nat) : JSNum :=
  match n with
  | some v => some (v + (k : Int))
  | none => none

/-- The `(repeat + 1)` URLs contributed by one `S` entry, indexed directly:
the `i`-th URL expands the media pattern at number `n0 + i` and time
`t0 + i·d`. -/
def entryUrls (mkUrl : String → String → Option String) (media rid : String)
    (bw : JSNum) (rbase : String) (d t0 n0 : JSNum) (cnt : Nat) : List String :=
  (List.range cnt).map (fun i =>
    resolveUrl mkUrl (replaceVars media rid (jsAddNat n0 i) (jsAddMulNat t0 d i) bw) rbase)

/-- The timeline expansion in closed form: each `S` entry contributes
`(repeat || 0) + 1` URLs via `entryUrls`, with the running time (reset on an
explicit `t=`) and the running number carried across entries in closed
form. -/
def timelineUrls (mkUrl : String → String → Option String) (media rid : String)
    (bw : JSNum) (rbase : String) :
    List DASHSegmentTimelineEntry → JSNum → JSNum → List String
  | [], _, _ => []
  | seg :: rest, time, number =>
    let t0 := match seg.start with | some v => v | none => time
    let cnt := (jsRepeatOrZero seg.repeatCount + 1).toNat
    entryUrls mkUrl media rid bw rbase seg.duration t0 number cnt ++
      timelineUrls mkUrl media rid bw rbase rest
        (jsAddMulNat t0 seg.duration cnt) (jsAddNat number cnt)

theorem jsAddNat_zero (n : JSNum) : jsAddNat n 0 = n := by
  cases n <;> simp [jsAddNat]

theorem jsAddNat_succ_shift (n : JSNum) (i : Nat) :
    jsAddNat n (i + 1) = jsAddNat (jsAdd n (some 1)) i := by
  cases n with
  | none => rfl
  | some v =>
    simp only [jsAddNat, jsAdd, Option.some.injEq]
    push_cast
    ring

theorem jsAddMulNat_zero (t d : JSNum) : jsAddMulNat t d 0 = t := by
  simp [jsAddMulNat]

theorem jsAddMulNat_succ_shift (t d : JSNum) (i : Nat) :
    jsAddMulNat t d (i + 1) = jsAddMulNat (jsAdd t d) d i := by
  by_cases hi : i = 0
  · subst hi
    cases t <;> cases d <;> simp [jsAddMulNat, jsAdd]
  · cases t with
    | none => cases d <;> simp [jsAddMulNat, jsAdd, hi]
    | some tv =>
      cases d with
      | none => simp [jsAddMulNat, jsAdd, hi]
      | some dv =>
        simp only [jsAddMulNat, jsAdd, hi, if_false, Nat.succ_ne_zero,
          Option.some.injEq]
        push_cast
        ring

/-- The inner loop in closed form. -/
theorem genInner_closed (mkUrl : String → String → Option String)
    (media rid : String) (bw : JSNum) (rbase : String) (d : JSNum) :
    ∀ (cnt : Nat) (t n : JSNum),
      genInner mkUrl media rid bw rbase d cnt t n =
        (entryUrls mkUrl media rid bw rbase d t n cnt,
          jsAddMulNat t d cnt, jsAddNat n cnt) := by
  intro cnt
  induction cnt with
  | zero =>
    intro t n
    simp [genInner, entryUrls, jsAddMulNat_zero, jsAddNat_zero]
  | succ k ih =>
    intro t n
    rw [genInner, ih]
    simp only [entryUrls, List.range_succ_eq_map, List.map_cons, List.map_map]
    refine congrArg₂ _ ?_ ?_
    · refine congrArg₂ _ ?_ ?_
      · rw [jsAddNat_zero, jsAddMulNat_zero]
      · apply List.map_congr_left
        intro i _
        simp only [Function.comp_apply]
        rw [← jsAddNat_succ_shift, ← jsAddMulNat_succ_shift]
    · rw [← jsAddMulNat_succ_shift, ← jsAddNat_succ_shift]

/-- The C7 concrete example: `startNumber = 1`, a single `S` with `d = 100`,
`r = 2`, media `v_$RepresentationID$_$Number%05d$.m4s`, id `v1`. -/
def c7Entry : DASHSegmentTimelineEntry :=
  { start := none, duration := some 100, repeatCount := some (some 2) }

def c7Template : DASHSegmentTemplate :=
  { media := "v_$RepresentationID$_$Number%05d$.m4s", initialization := none,
    startNumber := some 1, timescale := some 1, duration := none,
    timeline := some [c7Entry] }

def c7Rep : DASHRepresentation :=
  { id := "v1", bandwidth := some 0, width := none, height := none,
    frameRate := none, codecs := none, mimeType := none, baseUrl := none,
    segmentTemplate := some c7Template, segmentList := none }

/-- C7: for a segment template with a `SegmentTimeline`, `generateSegmentUrls`
is exactly the closed-form expansion: each `S` entry contributes
`(repeat + 1)` URLs whose `i`-th member expands the media pattern (with the
plain and `%0Nd`-zero-padded placeholder forms) at running number
`startNumber + (segments so far) + i` and running time `t0 + i·d` (reset on
an explicit `t=`); consequently the URL count is the sum of `(repeat + 1)`
over the entries.  The claim's concrete instance evaluates to
`v_v1_00001.m4s, v_v1_00002.m4s, v_v1_00003.m4s`. -/
theorem C7_timeline_expansion (mkUrl : String → String → Option String)
    (rep : DASHRepresentation) (baseUrl : String)
    (template : DASHSegmentTemplate) (tl : List DASHSegmentTimelineEntry)
    (ht : rep.segmentTemplate = some template)
    (htl : template.timeline = some tl) :
    generateSegmentUrls mkUrl rep baseUrl =
      timelineUrls mkUrl template.media rep.id rep.bandwidth
        (jsOr rep.baseUrl baseUrl) tl (some 0) template.startNumber ∧
    (generateSegmentUrls mkUrl rep baseUrl).length =
      (tl.map (fun seg => (jsRepeatOrZero seg.repeatCount + 1).toNat)).sum ∧
    generateSegmentUrls urlCtor0 c7Rep "https://h/v.mpd" =
      ["v_v1_00001.m4s", "v_v1_00002.m4s", "v_v1_00003.m4s"] := by
  have hgen : ∀ (entries : List DASHSegmentTimelineEntry) (t n : JSNum),
      genTimeline mkUrl template.media rep.id rep.bandwidth
          (jsOr rep.baseUrl baseUrl) entries t n =
        timelineUrls mkUrl template.media rep.id rep.bandwidth
          (jsOr rep.baseUrl baseUrl) entries t n := by
    intro entries
    induction entries with
    | nil => intro t n; rfl
    | cons seg rest ih =>
      intro t n
      rw [genTimeline, timelineUrls]
      simp only [genInner_closed]
      rw [ih]
  have hlen : ∀ (entries : List DASHSegmentTimelineEntry) (t n : JSNum),
      (timelineUrls mkUrl template.media rep.id rep.bandwidth
          (jsOr rep.baseUrl baseUrl) entries t n).length =
        (entries.map (fun seg => (jsRepeatOrZero seg.repeatCount + 1).toNat)).sum := by
    intro entries
    induction entries with
    | nil => intro t n; simp [timelineUrls]
    | cons seg rest ih =>
      intro t n
      rw [timelineUrls]
      simp [entryUrls, ih]
  have hmain : generateSegmentUrls mkUrl rep baseUrl =
      timelineUrls mkUrl template.media rep.id rep.bandwidth
        (jsOr rep.baseUrl baseUrl) tl (some 0) template.startNumber := by
    rw [generateSegmentUrls, ht]
    simp only
    rw [htl]
    simp only
    rw [hgen]
  refine ⟨hmain, ?_, by decide⟩
  rw [hmain, hlen]

theorem C7Witness_timeline_expansion :
    generateSegmentUrls urlCtor0 c7Rep "https://h/v.mpd" =
      timelineUrls urlCtor0 c7Template.media c7Rep.id c7Rep.bandwidth
        (jsOr c7Rep.baseUrl "https://h/v.mpd") [c7Entry]
        (some 0) c7Template.startNumber :=
  (C7_timeline_expansion urlCtor0 c7Rep "https://h/v.mpd" c7Template
    [c7Entry] (by decide) (by decide)).1

end AIGrabber
